import Mathlib

/-!
Verification of the film-success-analysis data pipeline.

Shallow embedding of the pipeline's core operations, translated from the
Python sources:

* `src/scripts/train_model.py` — profitability-threshold label selection;
* `src/api_modules/country_api.py` and `src/api_modules/ombd_api.py` —
  language-code resolution and the country/language fetcher;
* `src/api_modules/tmdb_api.py` — retrying HTTP GET wrapper and the paged
  top/flop movie fetchers;
* `src/api_modules/world_bank_api.py` — bulk GDP/population merge;
* `src/scripts/fetch_gdp_data.py` — per-country incremental fetcher;
* `src/scripts/data_pipeline.py` and `src/scripts/populate_missing_tables.py`
  — full-replace table loading;
* the CSV snapshot boundary (`to_csv` / `read_csv`) between fetchers and the
  relational store.

Machine floats that only ever hold integer or simple decimal values are
embedded as exact rationals (`ℚ`); network transports are embedded as
explicit response functions passed to the fetchers.
-/

namespace FilmModel

/-! ### Training step: profitability-threshold selection
(`src/scripts/train_model.py`, lines 19–35) -/

/-- One row of `data/movies.csv` after `dropna` on budget / release month /
revenue.  Only the two columns inspected by the threshold loop are kept. -/
structure MovieRow where
  budget : ℚ
  revenue : ℚ
deriving DecidableEq

/-- `df["is_hit"] = df["revenue"] > (t * df["budget"])` for a single row. -/
def is_hit (t : ℚ) (m : MovieRow) : Bool :=
  decide (m.revenue > t * m.budget)

/-- `len(df["is_hit"].value_counts()) >= 2`: the labelling at threshold `t`
produces at least one `True` row and at least one `False` row. -/
def bothClasses (t : ℚ) (rows : List MovieRow) : Bool :=
  rows.any (fun m => is_hit t m) && rows.any (fun m => ! is_hit t m)

/-- `thresholds = [2.0, 1.5, 1.0, 0.8]`, as exact rationals. -/
def thresholds : List ℚ :=
  [2, 3 / 2, 1, 4 / 5]

/-- The `for t in thresholds: ... break` loop: the first threshold in the
descending sequence that yields both classes; `none` means the script prints
the degenerate-labels message and exits with status 1. -/
def selectThreshold (rows : List MovieRow) : Option ℚ :=
  thresholds.find? (fun t => bothClasses t rows)

/-! ### Language-code resolution
(`src/api_modules/country_api.py` lines 6–17, `src/api_modules/ombd_api.py`
lines 6–19) -/

/-- Modelled from the spec: the "static language-code table" consulted by
`get_language_details` is `pycountry.languages` (alpha-2 → display name), a
third-party data set that is not part of `src/`.  It is represented here by a
finite association list of genuine ISO 639-1 entries; every key is a 2-letter
lower-case code and no display name is the string "Unknown". -/
def languageTable : List (String × String) :=
  [("en", "English"), ("fr", "French"), ("de", "German"), ("es", "Spanish"),
   ("it", "Italian"), ("pt", "Portuguese"), ("nl", "Dutch"), ("ru", "Russian"),
   ("zh", "Chinese"), ("ja", "Japanese"), ("ar", "Arabic"), ("hi", "Hindi"),
   ("sw", "Swahili"), ("tr", "Turkish"), ("pl", "Polish"), ("ro", "Romanian")]

/-- `pycountry.languages.get(alpha_2=c)`. -/
def lookupAlpha2 (c : String) : Option String :=
  (languageTable.find? (fun kv => kv.1 == c)).map (fun kv => kv.2)

/-- `get_language_details(code)`: look the first two characters of `code` up
in the static table; on success return `(language.name, code[:2])`, otherwise
the fallback pair `("Unknown", code)`. -/
def get_language_details (code : String) : String × String :=
  match lookupAlpha2 (code.take 2) with
  | some name => (name, code.take 2)
  | none => ("Unknown", code)

/-! ### Country/language fetcher
(`src/api_modules/country_api.py` lines 19–80) -/

/-- Python `str.strip()` (drop leading and trailing whitespace). -/
def pyStrip (s : String) : String :=
  String.mk (((s.data.dropWhile Char.isWhitespace).reverse.dropWhile
    Char.isWhitespace).reverse)

/-- Python `str.split(",")`. -/
def pySplitComma (s : String) : List String :=
  (s.data.splitOn ',').map String.mk

/-- One entry of the GeoNames `countryInfoJSON` payload, restricted to the
fields the fetcher reads.  `population` is kept as the integer that
`int(country.get("population", 0))` produces. -/
structure GeoEntry where
  countryName : String
  capital : String
  population : Int
  languages : String

/-- A `CountryLanguageRecord` row as appended to `result` by
`fetch_language_market`. -/
structure CLRecord where
  country : String
  capital : String
  language_code : String
  language : String
  population : Int
deriving DecidableEq

/-- The `language_list` computed for one country: the comma-separated
language string split, stripped, with empty pieces dropped, and defaulted to
`["Unknown"]` when nothing remains. -/
def langList (e : GeoEntry) : List String :=
  let pieces := ((pySplitComma e.languages).map pyStrip).filter (fun l => l != "")
  if pieces = [] then ["Unknown"] else pieces

/-- The per-country body of the `for country in data` loop: skip the entry if
the stripped name or the raw language string is empty, and otherwise emit one
record per language code in `language_list`, with the code resolved through
`get_language_details`. -/
def mkRecords (e : GeoEntry) : List CLRecord :=
  if pyStrip e.countryName = "" ∨ e.languages = "" then []
  else
    (langList e).map (fun lang_code =>
      { country := pyStrip e.countryName, capital := pyStrip e.capital,
        language_code := (get_language_details lang_code).2,
        language := (get_language_details lang_code).1,
        population := e.population })

/-- `fetch_language_market`, with the already-parsed GeoNames payload passed
in place of the live HTTP response: the in-memory record list the function
returns (and also writes to `data/language_market.csv`). -/
def fetch_language_market (entries : List GeoEntry) : List CLRecord :=
  entries.flatMap mkRecords

/-! ### Retrying HTTP GET wrapper
(`src/api_modules/tmdb_api.py` lines 33–42, `robust_get`) -/

/-- The body of `for attempt in range(retries)` starting at attempt index
`i` with the given number of attempts left.  `transport i` is the outcome of
the `i`-th `session.get` call: `some r` for a 2xx response `r`, `none` for a
transport error or a non-2xx status (which `raise_for_status` turns into an
exception).  The second component counts the `time.sleep(1)` calls, one per
failed attempt. -/
def robust_getFrom (transport : Nat → Option α) (i : Nat) : Nat → Option α × Nat
  | 0 => (none, 0)
  | n + 1 =>
    match transport i with
    | some r => (some r, 0)
    | none =>
      let rest := robust_getFrom transport (i + 1) n
      (rest.1, rest.2 + 1)

/-- `robust_get(session, url, retries)`: attempt the GET up to `retries`
times, returning the first successful response, or `None` (paired with the
number of sleeps performed) after the final attempt fails. -/
def robust_get (transport : Nat → Option α) (retries : Nat) : Option α × Nat :=
  robust_getFrom transport 0 retries

/-! ### Paged top/flop movie fetchers
(`src/api_modules/tmdb_api.py` lines 45–91) -/

/-- Accumulator step of the `for page in range(1, pages + 1)` loop.
`resp page` is the outcome of `robust_get` on that page's URL followed by the
`"results" in data` check: `some (some rs)` for a response whose JSON carries
a results list `rs`, `some none` for a response without a `"results"` key,
and `none` when `robust_get` returned `None` after its retries. -/
def pagesStep (resp : Nat → Option (Option (List α))) (movies : List α)
    (page : Nat) : List α :=
  match resp page with
  | some (some results) => movies ++ results
  | some none => movies
  | none => movies

/-- The list of records page `page` contributes: its results list when the
fetch succeeded and carried a `"results"` key, and nothing otherwise. -/
def pageResults (resp : Nat → Option (Option (List α))) (page : Nat) : List α :=
  match resp page with
  | some (some results) => results
  | some none => []
  | none => []

/-- `fetch_top_movies(pages)`: return `[]` when no API key is configured,
otherwise extend `movies` with each page's results over pages `1..pages`,
skipping failed pages. -/
def fetch_top_movies (apiKey : Bool) (pages : Nat)
    (resp : Nat → Option (Option (List α))) : List α :=
  if !apiKey then []
  else (List.range' 1 pages).foldl (pagesStep resp) []

/-- `fetch_flop_movies(pages)`: identical paging loop over the
ascending-revenue listing (the `vote_count.gte=10` filter lives in the URL,
i.e. inside `resp`). -/
def fetch_flop_movies (apiKey : Bool) (pages : Nat)
    (resp : Nat → Option (Option (List α))) : List α :=
  if !apiKey then []
  else (List.range' 1 pages).foldl (pagesStep resp) []

/-! ### Bulk macroeconomic fetcher
(`src/api_modules/world_bank_api.py` lines 27–76, `fetch_gdp_population`) -/

/-- One entry of a World Bank indicator payload (`json_data[1]`), restricted
to the two fields the function reads. -/
structure WBEntry where
  countryiso3code : String
  value : Option ℚ

/-- The record shape `fetch_gdp_population` returns (the source stores the
population under the key `population_gdp`). -/
structure EconomicRecord where
  iso_code : String
  gdp : Option ℚ
  population_gdp : Option ℚ
deriving DecidableEq

/-- The accumulating `data` dict, in insertion order: country code ↦
(gdp value, population value). -/
abbrev WBData := List (String × Option ℚ × Option ℚ)

/-- `data[code][key] = value` for `key` = `"gdp"` (`isGdp = true`) or
`"population"` (`isGdp = false`), creating `data[code]` if absent. -/
def insertIndicator (isGdp : Bool) (code : String) (v : ℚ) : WBData → WBData
  | [] => [(code, if isGdp then (some v, none) else (none, some v))]
  | (c, g, p) :: rest =>
    if c = code then
      (c, if isGdp then (some v, p) else (g, some v)) :: rest
    else
      (c, g, p) :: insertIndicator isGdp code v rest

/-- Body of `for entry in json_data[1]`: store the entry's value only when
the country code is non-empty (truthy) and the value is non-null. -/
def stepEntry (isGdp : Bool) (d : WBData) (e : WBEntry) : WBData :=
  match e.value with
  | some v => if e.countryiso3code ≠ "" then insertIndicator isGdp e.countryiso3code v d else d
  | none => d

/-- The whole per-indicator entry loop. -/
def processEntries (isGdp : Bool) (es : List WBEntry) (d : WBData) : WBData :=
  es.foldl (stepEntry isGdp) d

/-- One iteration of `for key, indicator in indicators.items()`: a `none`
payload (failed request, short response, or empty `json_data[1]` handled the
same way as an empty entry list) leaves `data` untouched. -/
def processIndicator (isGdp : Bool) (payload : Option (List WBEntry))
    (d : WBData) : WBData :=
  match payload with
  | none => d
  | some es => processEntries isGdp es d

/-- `fetch_gdp_population()`, with the two parsed indicator payloads passed
in place of the live HTTP responses (GDP first, then population, matching the
iteration order of the `indicators` dict), followed by the `enriched`
formatting loop. -/
def fetch_gdp_population (gdpPayload popPayload : Option (List WBEntry)) :
    List EconomicRecord :=
  let d := processIndicator false popPayload (processIndicator true gdpPayload [])
  d.map (fun x => { iso_code := x.1, gdp := x.2.1, population_gdp := x.2.2 })

/-- `data[code]` lookup on the accumulating mapping. -/
def dlookup (c : String) (d : WBData) : Option (Option ℚ × Option ℚ) :=
  (d.find? (fun x => x.1 == c)).map (fun x => x.2)

/-- The GDP slot recorded for `c` (absent codes yield `none`). -/
def gdpOf (c : String) (d : WBData) : Option ℚ :=
  match dlookup c d with
  | some x => x.1
  | none => none

/-- The population slot recorded for `c` (absent codes yield `none`). -/
def popOf (c : String) (d : WBData) : Option ℚ :=
  match dlookup c d with
  | some x => x.2
  | none => none

/-! ### Persistence layer: full-replace table loading
(`src/scripts/data_pipeline.py` lines 25–32,
`src/scripts/populate_missing_tables.py` lines 13–16) -/

/-- The relational store: a named table is either absent or holds a row
list. -/
def Store (ρ : Type) : Type := String → Option (List ρ)

/-- `df.to_sql(table, conn, if_exists="replace", index=False)`: drop whatever
the named table held and write the new record set. -/
def replace_table (name : String) (records : List ρ) (store : Store ρ) : Store ρ :=
  fun n => if n = name then some records else store n

/-! ### CSV snapshot boundary
(`df.to_csv(path, index=False)` in `src/api_modules/country_api.py` lines
76–78, `pd.read_csv` in `src/scripts/data_pipeline.py` lines 28–32) -/

/-- `YEAR = 2023`. -/
def YEAR : Int := 2023

/-- One row of a per-country indicator payload (`data[1]`), restricted to
the fields `fetch_latest_value` reads; `date` is the year as
`int(entry["date"])` parses it. -/
structure WBRow where
  date : Int
  value : Option ℚ

/-- `fetch_latest_value(api_url, code)`, with the parsed payload passed in
place of the live response: `none` stands for a failed request or a payload
failing the `len(data) < 2 or not data[1]` check; otherwise scan `data[1]`
for the first row with a non-null value whose year equals `YEAR`. -/
def fetch_latest_value (payload : Option (List WBRow)) : Option ℚ :=
  match payload with
  | none => none
  | some rows =>
    (rows.find? (fun row => row.value.isSome && decide (row.date = YEAR))).bind
      (fun row => row.value)

/-- Python `int(q)` on a float carrying the exact rational `q` (truncation
toward zero). -/
def pyInt (q : ℚ) : Int := Int.tdiv q.num (q.den : Int)

/-- A row of the `world_bank_data` destination table as the `INSERT` writes
it: `gdp` raw, `population_gdp` put through `int(pop)` when present. -/
structure TableRow where
  iso_code : String
  gdp : Option ℚ
  population_gdp : Option Int
deriving DecidableEq

/-- One recorded API request of the incremental fetcher. -/
inductive ApiCall where
  | gdpCall : String → ApiCall
  | popCall : String → ApiCall
deriving DecidableEq

/-- The country code an API call is about. -/
def callCode : ApiCall → String
  | .gdpCall c => c
  | .popCall c => c

/-- The two per-country World Bank endpoints, as response functions from
country code to parsed payload. -/
structure WorldBankTransport where
  gdpResp : String → Option (List WBRow)
  popResp : String → Option (List WBRow)

/-- Body of the `for country in pycountry.countries` loop for one country
code: the row inserted (if any) and the API calls issued. -/
def processCountry (t : WorldBankTransport) (code : String) :
    Option TableRow × List ApiCall :=
  let gdp := fetch_latest_value (t.gdpResp code)
  let pop := fetch_latest_value (t.popResp code)
  (if gdp.isSome || pop.isSome then
     some { iso_code := code, gdp := gdp, population_gdp := pop.map pyInt }
   else none,
   [ApiCall.gdpCall code, ApiCall.popCall code])

/-- The `main()` loop of `fetch_gdp_data.py`: for each known alpha-3 code in
order, skip it outright when it is already in the destination table
(`existing`), otherwise issue the two per-country requests and insert a row
only when at least one value came back.  Returns the inserted rows and the
full API call trace, in order. -/
def fetchMain (t : WorldBankTransport) :
    List String → List String → List TableRow × List ApiCall
  | [], _ => ([], [])
  | code :: rest, existing =>
    let tail := fetchMain t rest existing
    if code ∈ existing then tail
    else
      let pc := processCountry t code
      ((match pc.1 with | some row => [row] | none => []) ++ tail.1,
       pc.2 ++ tail.2)

/-! ### Concrete transports used to instantiate the universally quantified
theorems below -/

/-- A transport whose first attempt fails and whose second attempt returns
the response `7`. -/
def wTransport : Nat → Option Nat := fun i => if i = 1 then some 7 else none

/-- A three-page listing whose second page fails after retries. -/
def wPageResp : Nat → Option (Option (List Nat)) :=
  fun p => if p = 2 then none else some (some [p])

/-- A World Bank transport that answers the GDP query for "USA" with a
two-row payload (a 2022 row before the 2023 row) and fails everything
else. -/
def wWBT : WorldBankTransport where
  gdpResp := fun c => if c = "USA" then some [⟨2022, some 1⟩, ⟨2023, some 5⟩] else none
  popResp := fun _ => none

/-! ## Theorems -/

/-- Claim C1, as frozen, is false on the code: the threshold loop picks the
FIRST threshold in `[2.0, 1.5, 1.0, 0.8]` that yields both classes, so a
record set with no row above 2.0× budget that is mixed at 0.8 can be caught
earlier.  Witness record set `[(budget 10, revenue 16), (budget 10, revenue
5)]`: no row exceeds 2.0×budget, the 0.8 labelling is mixed, yet training
selects 1.5, not 0.8.  Also, a record set of constant revenue-to-budget ratio
3 with budgets of both signs `[(1, 3), (-1, -3)]` yields both classes at
threshold 2.0, so training succeeds instead of failing. -/
theorem C1_counterexample :
    ([MovieRow.mk 10 16, MovieRow.mk 10 5].all (fun m => ! is_hit 2 m) = true) ∧
    bothClasses (4 / 5) [MovieRow.mk 10 16, MovieRow.mk 10 5] = true ∧
    selectThreshold [MovieRow.mk 10 16, MovieRow.mk 10 5] = some (3 / 2) ∧
    (3 / 2 : ℚ) ≠ 4 / 5 ∧
    (MovieRow.mk 1 3).revenue = 3 * (MovieRow.mk 1 3).budget ∧
    (MovieRow.mk (-1) (-3)).revenue = 3 * (MovieRow.mk (-1) (-3)).budget ∧
    selectThreshold [MovieRow.mk 1 3, MovieRow.mk (-1) (-3)] = some 2 := by
  refine ⟨?_, ?_, ?_, by norm_num, by norm_num, by norm_num, ?_⟩ <;>
    norm_num [selectThreshold, thresholds, bothClasses, is_hit, List.find?,
      List.any, List.all]

/-- Claim C1, amended: (1) if every threshold before 0.8 in the descending
sequence yields a single class and the 0.8 labelling is mixed, training
selects the 0.8 threshold and succeeds; (2) a record set of constant
revenue-to-budget ratio whose budgets are all positive yields a single class
at every threshold, so training fails with the degenerate-labels exit. -/
theorem C1_thm :
    (∀ rows : List MovieRow,
      bothClasses 2 rows = false → bothClasses (3 / 2) rows = false →
      bothClasses 1 rows = false → bothClasses (4 / 5) rows = true →
      selectThreshold rows = some (4 / 5)) ∧
    (∀ (rows : List MovieRow) (r : ℚ),
      (∀ m ∈ rows, 0 < m.budget ∧ m.revenue = r * m.budget) →
      selectThreshold rows = none) := by
  constructor
  · intro rows h2 h15 h1 h08
    simp [selectThreshold, thresholds, List.find?, h2, h15, h1, h08]
  · intro rows r hconst
    unfold selectThreshold
    rw [List.find?_eq_none]
    intro t _
    simp only [Bool.not_eq_true]
    by_contra hboth
    rw [Bool.not_eq_false] at hboth
    unfold bothClasses at hboth
    rw [Bool.and_eq_true, List.any_eq_true, List.any_eq_true] at hboth
    obtain ⟨⟨m1, hm1, hhit⟩, m2, hm2, hmiss⟩ := hboth
    obtain ⟨hb1, he1⟩ := hconst m1 hm1
    obtain ⟨hb2, he2⟩ := hconst m2 hm2
    simp only [is_hit, decide_eq_true_eq] at hhit
    simp only [is_hit, Bool.not_eq_true', decide_eq_false_iff_not] at hmiss
    rw [he1] at hhit
    rw [he2, not_lt] at hmiss
    have hrt : t < r := (mul_lt_mul_right hb1).mp hhit
    have htr : r ≤ t := (mul_le_mul_right hb2).mp hmiss
    exact absurd hrt (not_lt.mpr htr)

/-- Witness for C1: the amended theorem applied at the record set
`[(10, 9), (10, 5)]` (single class at 2.0, 1.5, 1.0; mixed at 0.8) and at the
constant-ratio set `[(1, 3)]`. -/
theorem C1_witness :
    selectThreshold [MovieRow.mk 10 9, MovieRow.mk 10 5] = some (4 / 5) ∧
    selectThreshold [MovieRow.mk 1 3] = none := by
  constructor
  · exact C1_thm.1 [MovieRow.mk 10 9, MovieRow.mk 10 5]
      (by norm_num [bothClasses, is_hit, List.any])
      (by norm_num [bothClasses, is_hit, List.any])
      (by norm_num [bothClasses, is_hit, List.any])
      (by norm_num [bothClasses, is_hit, List.any])
  · refine C1_thm.2 [MovieRow.mk 1 3] 3 ?_
    intro m hm
    rw [List.mem_singleton] at hm
    subst hm
    norm_num

/-- Claim C2, as frozen, is false on the code: when resolution fails, the
emitted `language_code` is the ORIGINAL unresolved code (the "Unknown"
sentinel goes into the language-name field), so a 3-letter GeoNames code such
as "gsw" yields a record whose `language_code` is neither 2 characters long
nor the literal "Unknown". -/
theorem C2_counterexample :
    fetch_language_market [⟨"Switzerland", "Bern", 8000000, "gsw"⟩] =
      [⟨"Switzerland", "Bern", "gsw", "Unknown", 8000000⟩] ∧
    ¬(("gsw" : String).length = 2 ∨ ("gsw" : String) = "Unknown") := by
  exact ⟨by decide, by decide⟩

/-- Claim C2, amended: every record emitted by the country/language fetcher
either has a `language_code` of exactly 2 characters (successful resolution)
or carries the literal "Unknown" in its language-NAME field (failed
resolution, in which case `language_code` is the original unresolved
code). -/
theorem C2_thm : ∀ (entries : List GeoEntry) (rec : CLRecord),
    rec ∈ fetch_language_market entries →
    rec.language_code.length = 2 ∨ rec.language = "Unknown" := by
  intro entries rec hmem
  unfold fetch_language_market at hmem
  rw [List.mem_flatMap] at hmem
  obtain ⟨e, _, hrec⟩ := hmem
  unfold mkRecords at hrec
  split at hrec
  · exact absurd hrec (List.not_mem_nil rec)
  · rw [List.mem_map] at hrec
    obtain ⟨code, _, hrec⟩ := hrec
    rcases hlook : lookupAlpha2 (code.take 2) with _ | name
    · right
      rw [← hrec]
      simp [get_language_details, hlook]
    · left
      rw [← hrec]
      simp only [get_language_details, hlook]
      unfold lookupAlpha2 at hlook
      rw [Option.map_eq_some'] at hlook
      obtain ⟨kv, hfind, _⟩ := hlook
      have hmemkv : kv ∈ languageTable := List.mem_of_find?_eq_some hfind
      have hbeq := List.find?_some hfind
      simp only [beq_iff_eq] at hbeq
      have hkeys : ∀ kv ∈ languageTable, kv.1.length = 2 := by decide
      rw [← hbeq]
      exact hkeys kv hmemkv

/-- Witness for C2: the amended theorem applied to the record the fetcher
emits for a France entry with language string "fr". -/
theorem C2_witness :
    (⟨"France", "Paris", "fr", "French", 67000000⟩ : CLRecord).language_code.length = 2 ∨
    (⟨"France", "Paris", "fr", "French", 67000000⟩ : CLRecord).language = "Unknown" :=
  C2_thm [⟨"France", "Paris", 67000000, "fr"⟩] _ (by decide)

/-- Claim C3, as frozen, is false on the code: resolution looks up only the
first two characters of the code, so a compound code such as "en-US", which
is itself absent from the static table, still resolves to ("English", "en")
rather than to the fallback pair ("Unknown", "en-US"). -/
theorem C3_counterexample :
    get_language_details "en-US" = ("English", "en") ∧
    (∀ kv ∈ languageTable, kv.1 ≠ "en-US") ∧
    get_language_details "en-US" ≠ ("Unknown", "en-US") := by
  exact ⟨by decide, by decide, by decide⟩

/-- Claim C3, amended: every code present in the static table resolves to its
display name (never "Unknown") paired with the code itself; every code whose
2-character prefix is absent from the table resolves to the fallback pair
("Unknown", code) with the input code unchanged. -/
theorem C3_thm :
    (∀ kv ∈ languageTable,
      get_language_details kv.1 = (kv.2, kv.1) ∧ kv.2 ≠ "Unknown") ∧
    (∀ code : String, lookupAlpha2 (code.take 2) = none →
      get_language_details code = ("Unknown", code)) := by
  constructor
  · decide
  · intro code h
    unfold get_language_details
    rw [h]

/-- Witness for C3: the amended theorem applied at the table entry
("fr", "French") and at the absent code "xq". -/
theorem C3_witness :
    (get_language_details "fr" = ("French", "fr") ∧ ("French" : String) ≠ "Unknown") ∧
    get_language_details "xq" = ("Unknown", "xq") :=
  ⟨C3_thm.1 ("fr", "French") (by decide), C3_thm.2 "xq" (by decide)⟩

/-- Claim C6: writing record set `A` and then record set `B` to the same
named table leaves the table holding exactly `B`; the resulting store is the
same as if only `B` had ever been written, so nothing of `A` survives. -/
theorem C6_thm : ∀ (ρ : Type) (store : Store ρ) (name : String) (A B : List ρ),
    replace_table name B (replace_table name A store) name = some B ∧
    ∀ n, replace_table name B (replace_table name A store) n =
      replace_table name B store n := by
  intro ρ store name A B
  constructor
  · simp [replace_table]
  · intro n
    unfold replace_table
    by_cases h : n = name <;> simp [h]

/-- Helper: starting at attempt `i` with `n` attempts left, if the first `k`
attempts fail and attempt `i + k` succeeds within budget, the wrapper returns
that response after exactly `k` sleeps. -/
theorem robust_getFrom_first_success (transport : Nat → Option α) :
    ∀ (n i k : Nat) (r : α), (∀ j, j < k → transport (i + j) = none) →
      transport (i + k) = some r → k < n →
      robust_getFrom transport i n = (some r, k) := by
  intro n
  induction n with
  | zero => intro i k r _ _ hk; exact absurd hk (Nat.not_lt_zero k)
  | succ n ih =>
    intro i k r hpre hk hlt
    cases k with
    | zero =>
      rw [Nat.add_zero] at hk
      unfold robust_getFrom
      rw [hk]
    | succ k =>
      have h0 : transport i = none := by
        have := hpre 0 (Nat.succ_pos k)
        rwa [Nat.add_zero] at this
      have hrec : robust_getFrom transport (i + 1) n = (some r, k) := by
        apply ih
        · intro j hj
          have := hpre (j + 1) (Nat.succ_lt_succ hj)
          rwa [show i + (j + 1) = i + 1 + j by omega] at this
        · rwa [show i + 1 + k = i + (k + 1) by omega]
        · omega
      unfold robust_getFrom
      rw [h0]
      simp [hrec]

/-- Helper: the wrapper yields `none` from attempt `i` with `n` attempts
left exactly when all `n` attempts fail. -/
theorem robust_getFrom_none_iff (transport : Nat → Option α) :
    ∀ (n i : Nat), (robust_getFrom transport i n).1 = none ↔
      ∀ j, j < n → transport (i + j) = none := by
  intro n
  induction n with
  | zero =>
    intro i
    constructor
    · intro _ j hj; exact absurd hj (Nat.not_lt_zero j)
    · intro _; rfl
  | succ n ih =>
    intro i
    cases htr : transport i with
    | some r =>
      constructor
      · intro h
        exfalso
        unfold robust_getFrom at h
        rw [htr] at h
        exact Option.noConfusion h
      · intro h
        exfalso
        have h0 := h 0 (Nat.succ_pos n)
        rw [Nat.add_zero, htr] at h0
        exact Option.noConfusion h0
    | none =>
      constructor
      · intro h j hj
        cases j with
        | zero => rwa [Nat.add_zero]
        | succ j =>
          unfold robust_getFrom at h
          rw [htr] at h
          simp only at h
          have := (ih (i + 1)).mp h j (by omega)
          rwa [show i + 1 + j = i + (j + 1) by omega] at this
      · intro h
        unfold robust_getFrom
        rw [htr]
        simp only
        apply (ih (i + 1)).mpr
        intro j hj
        have := h (j + 1) (by omega)
        rwa [show i + (j + 1) = i + 1 + j by omega] at this

/-- Helper: when all attempts fail, the wrapper sleeps once per attempt. -/
theorem robust_getFrom_all_fail (transport : Nat → Option α) :
    ∀ (n i : Nat), (∀ j, j < n → transport (i + j) = none) →
      robust_getFrom transport i n = (none, n) := by
  intro n
  induction n with
  | zero => intro i _; rfl
  | succ n ih =>
    intro i h
    have h0 : transport i = none := by
      have := h 0 (Nat.succ_pos n)
      rwa [Nat.add_zero] at this
    have hrec : robust_getFrom transport (i + 1) n = (none, n) := by
      apply ih
      intro j hj
      have := h (j + 1) (by omega)
      rwa [show i + (j + 1) = i + 1 + j by omega] at this
    unfold robust_getFrom
    rw [h0]
    simp [hrec]

/-- Claim C4: the GET wrapper returns the first successful response it
obtains (sleeping once per failed attempt before it); it returns the failure
value `None` exactly when all `retries` attempts fail — never while an
attempt remains — and in that case it has slept after each failed attempt. -/
theorem C4_thm : ∀ (α : Type) (transport : Nat → Option α) (retries : Nat),
    (∀ (k : Nat) (r : α), (∀ j, j < k → transport j = none) →
      transport k = some r → k < retries →
      robust_get transport retries = (some r, k)) ∧
    ((robust_get transport retries).1 = none ↔
      ∀ j, j < retries → transport j = none) ∧
    ((∀ j, j < retries → transport j = none) →
      robust_get transport retries = (none, retries)) := by
  intro α transport retries
  refine ⟨?_, ?_, ?_⟩
  · intro k r hpre hk hlt
    unfold robust_get
    apply robust_getFrom_first_success transport retries 0 k r
    · intro j hj
      rw [Nat.zero_add]
      exact hpre j hj
    · rwa [Nat.zero_add]
    · exact hlt
  · unfold robust_get
    have := robust_getFrom_none_iff transport retries 0
    simpa using this
  · intro h
    unfold robust_get
    apply robust_getFrom_all_fail
    intro j hj
    rw [Nat.zero_add]
    exact h j hj

/-- Witness for C4: with a transport whose attempt 0 fails and attempt 1
returns response 7, three configured attempts return that first success after
one sleep. -/
theorem C4_witness : robust_get wTransport 3 = (some 7, 1) :=
  (C4_thm Nat wTransport 3).1 1 7
    (by
      intro j hj
      have : j = 0 := by omega
      subst this
      rfl)
    rfl
    (by omega)

/-- Helper: the page loop is the ordered concatenation of the per-page
contributions. -/
theorem foldl_pagesStep (resp : Nat → Option (Option (List α))) :
    ∀ (l : List Nat) (acc : List α),
      l.foldl (pagesStep resp) acc = acc ++ (l.map (pageResults resp)).flatten := by
  intro l
  induction l with
  | nil => intro acc; simp
  | cons p rest ih =>
    intro acc
    rw [List.foldl_cons, ih]
    have hstep : pagesStep resp acc p = acc ++ pageResults resp p := by
      cases h : resp p with
      | none => simp [pagesStep, pageResults, h]
      | some x =>
        cases x with
        | none => simp [pagesStep, pageResults, h]
        | some rs => simp [pagesStep, pageResults, h]
    rw [hstep]
    simp

/-- Claim C9: with an API key configured, `fetch_top_movies` and
`fetch_flop_movies` return the concatenation, in ascending page order, of the
results of each page of the listing, where a page that failed after retries
(and likewise a page without a results list) contributes no records — so a
failure on one page leaves every other page's results in place. -/
theorem C9_thm : ∀ (α : Type) (pages : Nat)
    (resp : Nat → Option (Option (List α))) (apiKey : Bool),
    apiKey = true →
    (fetch_top_movies apiKey pages resp =
        ((List.range' 1 pages).map (pageResults resp)).flatten ∧
      fetch_flop_movies apiKey pages resp =
        ((List.range' 1 pages).map (pageResults resp)).flatten ∧
      ∀ k, resp k = none → pageResults resp k = []) := by
  intro α pages resp apiKey hkey
  subst hkey
  refine ⟨?_, ?_, ?_⟩
  · unfold fetch_top_movies
    rw [foldl_pagesStep]
    simp
  · unfold fetch_flop_movies
    rw [foldl_pagesStep]
    simp
  · intro k hk
    simp [pageResults, hk]

/-- Witness for C9: three pages with page 2 failing after retries; both
fetchers return pages 1 and 3 concatenated in order. -/
theorem C9_witness :
    fetch_top_movies true 3 wPageResp =
        ((List.range' 1 3).map (pageResults wPageResp)).flatten ∧
      fetch_flop_movies true 3 wPageResp =
        ((List.range' 1 3).map (pageResults wPageResp)).flatten ∧
      ∀ k, wPageResp k = none → pageResults wPageResp k = [] :=
  C9_thm Nat 3 wPageResp true rfl

/-- Helper: `data` lookup on a cons cell. -/
theorem dlookup_cons (c a : String) (x : Option ℚ × Option ℚ) (rest : WBData) :
    dlookup c ((a, x) :: rest) = if a = c then some x else dlookup c rest := by
  unfold dlookup
  by_cases h : a = c
  · rw [List.find?_cons_of_pos _ (by simp [h])]
    simp [h]
  · rw [List.find?_cons_of_neg _ (by simp [h])]
    simp [h]

/-- Helper: unfolding `insertIndicator` on the empty mapping. -/
theorem insertIndicator_nil (b : Bool) (code : String) (v : ℚ) :
    insertIndicator b code v [] =
      [(code, if b then (some v, none) else (none, some v))] := rfl

/-- Helper: unfolding `insertIndicator` on a cons cell. -/
theorem insertIndicator_cons (b : Bool) (code : String) (v : ℚ) (a : String)
    (g p : Option ℚ) (rest : WBData) :
    insertIndicator b code v ((a, g, p) :: rest) =
      if a = code then (a, if b then (some v, p) else (g, some v)) :: rest
      else (a, g, p) :: insertIndicator b code v rest := rfl

/-- Helper: storing a value for one country leaves every other country's
slots unchanged. -/
theorem dlookup_insert_ne (b : Bool) (v : ℚ) :
    ∀ (d : WBData) (c c' : String), c' ≠ c →
      dlookup c (insertIndicator b c' v d) = dlookup c d := by
  intro d
  induction d with
  | nil =>
    intro c c' h
    rw [insertIndicator_nil, dlookup_cons, if_neg h]
  | cons hd rest ih =>
    intro c c' h
    obtain ⟨a, g, p⟩ := hd
    rw [insertIndicator_cons]
    by_cases ha : a = c'
    · rw [if_pos ha, dlookup_cons, dlookup_cons]
      have hac : ¬ a = c := fun hx => h (ha ▸ hx)
      rw [if_neg hac, if_neg hac]
    · rw [if_neg ha, dlookup_cons, dlookup_cons]
      by_cases hac : a = c
      · rw [if_pos hac, if_pos hac]
      · rw [if_neg hac, if_neg hac]
        exact ih c c' h

/-- Helper: storing a value for country `c` sets exactly the indicated slot
of `c` and keeps the other slot. -/
theorem dlookup_insert_self (b : Bool) (v : ℚ) :
    ∀ (d : WBData) (c : String),
      dlookup c (insertIndicator b c v d) =
        some (if b then (some v, popOf c d) else (gdpOf c d, some v)) := by
  intro d
  induction d with
  | nil =>
    intro c
    rw [insertIndicator_nil, dlookup_cons, if_pos rfl]
    cases b <;> rfl
  | cons hd rest ih =>
    intro c
    obtain ⟨a, g, p⟩ := hd
    rw [insertIndicator_cons]
    by_cases ha : a = c
    · rw [if_pos ha, dlookup_cons, if_pos ha]
      unfold gdpOf popOf
      rw [dlookup_cons, if_pos ha]
    · rw [if_neg ha, dlookup_cons, if_neg ha, ih c]
      unfold gdpOf popOf
      simp only [dlookup_cons c a (g, p) rest, if_neg ha]

/-- Helper: the GDP slot under a known lookup. -/
theorem gdpOf_dlookup {c : String} {d : WBData} {x : Option ℚ × Option ℚ}
    (h : dlookup c d = some x) : gdpOf c d = x.1 := by
  unfold gdpOf
  rw [h]

/-- Helper: the population slot under a known lookup. -/
theorem popOf_dlookup {c : String} {d : WBData} {x : Option ℚ × Option ℚ}
    (h : dlookup c d = some x) : popOf c d = x.2 := by
  unfold popOf
  rw [h]

/-- Helper: a country with a recorded GDP slot is present in the mapping. -/
theorem dlookup_of_gdpOf_isSome {c : String} {d : WBData}
    (h : (gdpOf c d).isSome) : ∃ x, dlookup c d = some x := by
  unfold gdpOf at h
  cases hd : dlookup c d with
  | none => rw [hd] at h; simp at h
  | some x => exact ⟨x, rfl⟩

/-- Helper: a country with a recorded population slot is present in the
mapping. -/
theorem dlookup_of_popOf_isSome {c : String} {d : WBData}
    (h : (popOf c d).isSome) : ∃ x, dlookup c d = some x := by
  unfold popOf at h
  cases hd : dlookup c d with
  | none => rw [hd] at h; simp at h
  | some x => exact ⟨x, rfl⟩

/-- Helper: an entry with a null value is skipped. -/
theorem stepEntry_none (b : Bool) (d : WBData) (e : WBEntry)
    (hv : e.value = none) : stepEntry b d e = d := by
  simp [stepEntry, hv]

/-- Helper: an entry with an empty (falsy) country code is skipped. -/
theorem stepEntry_empty (b : Bool) (d : WBData) (e : WBEntry) (v : ℚ)
    (hv : e.value = some v) (hc : e.countryiso3code = "") :
    stepEntry b d e = d := by
  simp [stepEntry, hv, hc]

/-- Helper: an entry with a non-null value and non-empty code stores its
value. -/
theorem stepEntry_some (b : Bool) (d : WBData) (e : WBEntry) (v : ℚ)
    (hv : e.value = some v) (hc : e.countryiso3code ≠ "") :
    stepEntry b d e = insertIndicator b e.countryiso3code v d := by
  simp [stepEntry, hv, hc]

/-- Helper: a GDP-payload entry never changes any population slot. -/
theorem popOf_stepEntry_true (d : WBData) (e : WBEntry) (c : String) :
    popOf c (stepEntry true d e) = popOf c d := by
  cases hv : e.value with
  | none => rw [stepEntry_none true d e hv]
  | some v =>
    by_cases hc0 : e.countryiso3code = ""
    · rw [stepEntry_empty true d e v hv hc0]
    · rw [stepEntry_some true d e v hv hc0]
      by_cases hc : e.countryiso3code = c
      · subst hc
        have hins := dlookup_insert_self true v d e.countryiso3code
        simp [popOf, hins]
      · unfold popOf
        rw [dlookup_insert_ne _ _ _ _ _ hc]

/-- Helper: a population-payload entry never changes any GDP slot. -/
theorem gdpOf_stepEntry_false (d : WBData) (e : WBEntry) (c : String) :
    gdpOf c (stepEntry false d e) = gdpOf c d := by
  cases hv : e.value with
  | none => rw [stepEntry_none false d e hv]
  | some v =>
    by_cases hc0 : e.countryiso3code = ""
    · rw [stepEntry_empty false d e v hv hc0]
    · rw [stepEntry_some false d e v hv hc0]
      by_cases hc : e.countryiso3code = c
      · subst hc
        have hins := dlookup_insert_self false v d e.countryiso3code
        simp [gdpOf, hins]
      · unfold gdpOf
        rw [dlookup_insert_ne _ _ _ _ _ hc]

/-- Helper: processing the whole GDP payload never changes population
slots. -/
theorem popOf_processEntries_true (c : String) :
    ∀ (es : List WBEntry) (d : WBData),
      popOf c (processEntries true es d) = popOf c d := by
  intro es
  induction es with
  | nil => intro d; rfl
  | cons e es ih =>
    intro d
    show popOf c (processEntries true es (stepEntry true d e)) = popOf c d
    rw [ih, popOf_stepEntry_true]

/-- Helper: processing the whole population payload never changes GDP
slots. -/
theorem gdpOf_processEntries_false (c : String) :
    ∀ (es : List WBEntry) (d : WBData),
      gdpOf c (processEntries false es d) = gdpOf c d := by
  intro es
  induction es with
  | nil => intro d; rfl
  | cons e es ih =>
    intro d
    show gdpOf c (processEntries false es (stepEntry false d e)) = gdpOf c d
    rw [ih, gdpOf_stepEntry_false]

/-- Helper: a GDP-payload entry keeps an already-set GDP slot set. -/
theorem gdpOf_stepEntry_true_mono {d : WBData} {c : String} (e : WBEntry)
    (h : (gdpOf c d).isSome) : (gdpOf c (stepEntry true d e)).isSome := by
  cases hv : e.value with
  | none => rw [stepEntry_none true d e hv]; exact h
  | some v =>
    by_cases hc0 : e.countryiso3code = ""
    · rw [stepEntry_empty true d e v hv hc0]; exact h
    · rw [stepEntry_some true d e v hv hc0]
      by_cases hc : e.countryiso3code = c
      · subst hc
        have hins := dlookup_insert_self true v d e.countryiso3code
        simp [gdpOf, hins]
      · unfold gdpOf
        rw [dlookup_insert_ne _ _ _ _ _ hc]
        exact h

/-- Helper: a population-payload entry keeps an already-set population slot
set. -/
theorem popOf_stepEntry_false_mono {d : WBData} {c : String} (e : WBEntry)
    (h : (popOf c d).isSome) : (popOf c (stepEntry false d e)).isSome := by
  cases hv : e.value with
  | none => rw [stepEntry_none false d e hv]; exact h
  | some v =>
    by_cases hc0 : e.countryiso3code = ""
    · rw [stepEntry_empty false d e v hv hc0]; exact h
    · rw [stepEntry_some false d e v hv hc0]
      by_cases hc : e.countryiso3code = c
      · subst hc
        have hins := dlookup_insert_self false v d e.countryiso3code
        simp [popOf, hins]
      · unfold popOf
        rw [dlookup_insert_ne _ _ _ _ _ hc]
        exact h

/-- Helper: after processing a GDP payload containing a non-null entry for a
non-empty code `c` (or starting from a mapping where `c`'s GDP slot is
already set), `c`'s GDP slot is set. -/
theorem gdpOf_processEntries_true_isSome {c : String} (hc : c ≠ "") :
    ∀ (es : List WBEntry) (d : WBData),
      ((gdpOf c d).isSome ∨ ∃ e ∈ es, e.countryiso3code = c ∧ e.value.isSome) →
      (gdpOf c (processEntries true es d)).isSome := by
  intro es
  induction es with
  | nil =>
    intro d h
    rcases h with h | ⟨e, he, _⟩
    · exact h
    · exact absurd he (List.not_mem_nil e)
  | cons e es ih =>
    intro d h
    show (gdpOf c (processEntries true es (stepEntry true d e))).isSome
    rcases h with h | ⟨e', he', hce', hve'⟩
    · exact ih _ (Or.inl (gdpOf_stepEntry_true_mono e h))
    · rcases List.mem_cons.mp he' with rfl | hmem
      · apply ih _ (Or.inl ?_)
        obtain ⟨v, hv⟩ := Option.isSome_iff_exists.mp hve'
        rw [stepEntry_some true d e' v hv (by rw [hce']; exact hc), hce']
        have hins := dlookup_insert_self true v d c
        simp [gdpOf, hins]
      · exact ih _ (Or.inr ⟨e', hmem, hce', hve'⟩)

/-- Helper: after processing a population payload containing a non-null entry
for a non-empty code `c` (or starting from a mapping where `c`'s population
slot is already set), `c`'s population slot is set. -/
theorem popOf_processEntries_false_isSome {c : String} (hc : c ≠ "") :
    ∀ (es : List WBEntry) (d : WBData),
      ((popOf c d).isSome ∨ ∃ e ∈ es, e.countryiso3code = c ∧ e.value.isSome) →
      (popOf c (processEntries false es d)).isSome := by
  intro es
  induction es with
  | nil =>
    intro d h
    rcases h with h | ⟨e, he, _⟩
    · exact h
    · exact absurd he (List.not_mem_nil e)
  | cons e es ih =>
    intro d h
    show (popOf c (processEntries false es (stepEntry false d e))).isSome
    rcases h with h | ⟨e', he', hce', hve'⟩
    · exact ih _ (Or.inl (popOf_stepEntry_false_mono e h))
    · rcases List.mem_cons.mp he' with rfl | hmem
      · apply ih _ (Or.inl ?_)
        obtain ⟨v, hv⟩ := Option.isSome_iff_exists.mp hve'
        rw [stepEntry_some false d e' v hv (by rw [hce']; exact hc), hce']
        have hins := dlookup_insert_self false v d c
        simp [popOf, hins]
      · exact ih _ (Or.inr ⟨e', hmem, hce', hve'⟩)

/-- Helper: a payload none of whose entries carry a non-null value for code
`c` leaves `c`'s slots exactly as they were. -/
theorem dlookup_processEntries_untouched (b : Bool) (c : String) :
    ∀ (es : List WBEntry) (d : WBData),
      (∀ e ∈ es, e.countryiso3code = c → e.value = none) →
      dlookup c (processEntries b es d) = dlookup c d := by
  intro es
  induction es with
  | nil => intro d _; rfl
  | cons e es ih =>
    intro d h
    show dlookup c (processEntries b es (stepEntry b d e)) = dlookup c d
    rw [ih _ (fun e' he' => h e' (List.mem_cons_of_mem e he'))]
    cases hv : e.value with
    | none => rw [stepEntry_none b d e hv]
    | some v =>
      by_cases hc0 : e.countryiso3code = ""
      · rw [stepEntry_empty b d e v hv hc0]
      · rw [stepEntry_some b d e v hv hc0]
        have hne : e.countryiso3code ≠ c := by
          intro hcc
          rw [h e (List.mem_cons_self e es) hcc] at hv
          exact Option.noConfusion hv
        exact dlookup_insert_ne _ _ _ _ _ hne

/-- Helper: the entry loop over a concatenation is the two loops in
sequence. -/
theorem processEntries_append (b : Bool) (l1 l2 : List WBEntry) (d : WBData) :
    processEntries b (l1 ++ l2) d = processEntries b l2 (processEntries b l1 d) := by
  unfold processEntries
  rw [List.foldl_append]

/-- Helper: after processing a GDP payload in which entry `e` (code `c`,
value `v`) is the last non-null entry for `c`, the GDP slot of `c` holds
exactly `v`. -/
theorem gdpOf_processEntries_true_last {c : String} (hc : c ≠ "")
    (pre post : List WBEntry) (e : WBEntry) (v : ℚ) (d : WBData)
    (hcode : e.countryiso3code = c) (hval : e.value = some v)
    (hpost : ∀ x ∈ post, x.countryiso3code = c → x.value = none) :
    gdpOf c (processEntries true (pre ++ e :: post) d) = some v := by
  rw [processEntries_append]
  show gdpOf c (processEntries true post
    (stepEntry true (processEntries true pre d) e)) = some v
  have hstep : stepEntry true (processEntries true pre d) e =
      insertIndicator true c v (processEntries true pre d) := by
    rw [stepEntry_some true _ e v hval (by rw [hcode]; exact hc), hcode]
  unfold gdpOf
  rw [dlookup_processEntries_untouched true c post _ hpost, hstep,
    dlookup_insert_self]
  simp

/-- Helper: after processing a population payload in which entry `e` (code
`c`, value `v`) is the last non-null entry for `c`, the population slot of
`c` holds exactly `v`. -/
theorem popOf_processEntries_false_last {c : String} (hc : c ≠ "")
    (pre post : List WBEntry) (e : WBEntry) (v : ℚ) (d : WBData)
    (hcode : e.countryiso3code = c) (hval : e.value = some v)
    (hpost : ∀ x ∈ post, x.countryiso3code = c → x.value = none) :
    popOf c (processEntries false (pre ++ e :: post) d) = some v := by
  rw [processEntries_append]
  show popOf c (processEntries false post
    (stepEntry false (processEntries false pre d) e)) = some v
  have hstep : stepEntry false (processEntries false pre d) e =
      insertIndicator false c v (processEntries false pre d) := by
    rw [stepEntry_some false _ e v hval (by rw [hcode]; exact hc), hcode]
  unfold popOf
  rw [dlookup_processEntries_untouched false c post _ hpost, hstep,
    dlookup_insert_self]
  simp

/-- Helper: a country present in the final mapping yields a record carrying
exactly its two slots in the `enriched` output list. -/
theorem mem_fetch_of_dlookup {c : String} {d : WBData}
    {x : Option ℚ × Option ℚ} (h : dlookup c d = some x) :
    (⟨c, x.1, x.2⟩ : EconomicRecord) ∈
      d.map (fun y =>
        ({ iso_code := y.1, gdp := y.2.1, population_gdp := y.2.2 } :
          EconomicRecord)) := by
  unfold dlookup at h
  rw [Option.map_eq_some'] at h
  obtain ⟨y, hfind, hy⟩ := h
  have hmem : y ∈ d := List.mem_of_find?_eq_some hfind
  have hbeq := List.find?_some hfind
  simp only [beq_iff_eq] at hbeq
  rw [List.mem_map]
  exact ⟨y, hmem, by rw [hbeq, hy]⟩

/-- Claim C5: in the bulk macroeconomic fetch, a country code whose last
non-null GDP entry carries `gv` and whose last non-null population entry
carries `pv` yields a record carrying exactly those two values; a code with a
non-null value in only one payload yields a record carrying that value with
the other field null (never zero); the two fields populate independently per
code. -/
theorem C5_thm : ∀ (gs ps : List WBEntry) (c : String), c ≠ "" →
    (∀ (gpre gpost ppre ppost : List WBEntry) (ge pe : WBEntry) (gv pv : ℚ),
      gs = gpre ++ ge :: gpost → ge.countryiso3code = c → ge.value = some gv →
      (∀ x ∈ gpost, x.countryiso3code = c → x.value = none) →
      ps = ppre ++ pe :: ppost → pe.countryiso3code = c → pe.value = some pv →
      (∀ x ∈ ppost, x.countryiso3code = c → x.value = none) →
      ∃ rec ∈ fetch_gdp_population (some gs) (some ps),
        rec.iso_code = c ∧ rec.gdp = some gv ∧ rec.population_gdp = some pv) ∧
    (∀ (gpre gpost : List WBEntry) (ge : WBEntry) (gv : ℚ),
      gs = gpre ++ ge :: gpost → ge.countryiso3code = c → ge.value = some gv →
      (∀ x ∈ gpost, x.countryiso3code = c → x.value = none) →
      (∀ x ∈ ps, x.countryiso3code = c → x.value = none) →
      ∃ rec ∈ fetch_gdp_population (some gs) (some ps),
        rec.iso_code = c ∧ rec.gdp = some gv ∧ rec.population_gdp = none) ∧
    (∀ (ppre ppost : List WBEntry) (pe : WBEntry) (pv : ℚ),
      (∀ x ∈ gs, x.countryiso3code = c → x.value = none) →
      ps = ppre ++ pe :: ppost → pe.countryiso3code = c → pe.value = some pv →
      (∀ x ∈ ppost, x.countryiso3code = c → x.value = none) →
      ∃ rec ∈ fetch_gdp_population (some gs) (some ps),
        rec.iso_code = c ∧ rec.gdp = none ∧ rec.population_gdp = some pv) := by
  intro gs ps c hc
  refine ⟨?_, ?_, ?_⟩
  · intro gpre gpost ppre ppost ge pe gv pv hgs hgc hgv hgpost hps hpc hpv hppost
    subst hgs
    subst hps
    have hg0 : gdpOf c (processEntries true (gpre ++ ge :: gpost) []) = some gv :=
      gdpOf_processEntries_true_last hc gpre gpost ge gv [] hgc hgv hgpost
    have hg1 : gdpOf c (processEntries false (ppre ++ pe :: ppost)
        (processEntries true (gpre ++ ge :: gpost) [])) = some gv := by
      rw [gdpOf_processEntries_false]
      exact hg0
    have hp1 : popOf c (processEntries false (ppre ++ pe :: ppost)
        (processEntries true (gpre ++ ge :: gpost) [])) = some pv :=
      popOf_processEntries_false_last hc ppre ppost pe pv _ hpc hpv hppost
    obtain ⟨x, hx⟩ := dlookup_of_gdpOf_isSome (by rw [hg1]; rfl)
    refine ⟨⟨c, x.1, x.2⟩, mem_fetch_of_dlookup hx, rfl, ?_, ?_⟩
    · rw [← gdpOf_dlookup hx]
      exact hg1
    · rw [← popOf_dlookup hx]
      exact hp1
  · intro gpre gpost ge gv hgs hgc hgv hgpost hpnone
    subst hgs
    have hg0 : gdpOf c (processEntries true (gpre ++ ge :: gpost) []) = some gv :=
      gdpOf_processEntries_true_last hc gpre gpost ge gv [] hgc hgv hgpost
    have hd1 : dlookup c (processEntries false ps
        (processEntries true (gpre ++ ge :: gpost) [])) =
        dlookup c (processEntries true (gpre ++ ge :: gpost) []) :=
      dlookup_processEntries_untouched false c ps _ hpnone
    obtain ⟨x, hx⟩ := dlookup_of_gdpOf_isSome (by rw [hg0]; rfl)
    have hx1 : dlookup c (processEntries false ps
        (processEntries true (gpre ++ ge :: gpost) [])) = some x := by
      rw [hd1]
      exact hx
    refine ⟨⟨c, x.1, x.2⟩, mem_fetch_of_dlookup hx1, rfl, ?_, ?_⟩
    · rw [← gdpOf_dlookup hx]
      exact hg0
    · have hpop0 : popOf c (processEntries true (gpre ++ ge :: gpost) []) = none := by
        rw [popOf_processEntries_true]
        rfl
      rw [← popOf_dlookup hx]
      exact hpop0
  · intro ppre ppost pe pv hgnone hps hpc hpv hppost
    subst hps
    have hd0 : dlookup c (processEntries true gs []) = none := by
      rw [dlookup_processEntries_untouched true c gs [] hgnone]
      rfl
    have hp1 : popOf c (processEntries false (ppre ++ pe :: ppost)
        (processEntries true gs [])) = some pv :=
      popOf_processEntries_false_last hc ppre ppost pe pv _ hpc hpv hppost
    obtain ⟨x, hx⟩ := dlookup_of_popOf_isSome (by rw [hp1]; rfl)
    refine ⟨⟨c, x.1, x.2⟩, mem_fetch_of_dlookup hx, rfl, ?_, ?_⟩
    · have hgd1 : gdpOf c (processEntries false (ppre ++ pe :: ppost)
          (processEntries true gs [])) = none := by
        rw [gdpOf_processEntries_false]
        unfold gdpOf
        rw [hd0]
      rw [← gdpOf_dlookup hx]
      exact hgd1
    · rw [← popOf_dlookup hx]
      exact hp1

/-- Witness for C5: the spec's concrete scenario — the record for "USA"
carries GDP 25000000000000 and population 331000000, and the GDP-only record
for "FRA" carries GDP 3000000000000 with a null population. -/
theorem C5_witness :
    (∃ rec ∈ fetch_gdp_population
        (some [⟨"USA", some 25000000000000⟩, ⟨"FRA", some 3000000000000⟩])
        (some [⟨"USA", some 331000000⟩]),
      rec.iso_code = "USA" ∧ rec.gdp = some 25000000000000 ∧
        rec.population_gdp = some 331000000) ∧
    (∃ rec ∈ fetch_gdp_population
        (some [⟨"USA", some 25000000000000⟩, ⟨"FRA", some 3000000000000⟩])
        (some [⟨"USA", some 331000000⟩]),
      rec.iso_code = "FRA" ∧ rec.gdp = some 3000000000000 ∧
        rec.population_gdp = none) := by
  constructor
  · exact (C5_thm
        [⟨"USA", some 25000000000000⟩, ⟨"FRA", some 3000000000000⟩]
        [⟨"USA", some 331000000⟩] "USA" (by decide)).1
      [] [⟨"FRA", some 3000000000000⟩] [] [] ⟨"USA", some 25000000000000⟩
      ⟨"USA", some 331000000⟩ 25000000000000 331000000
      rfl rfl rfl (by decide) rfl rfl rfl (by decide)
  · exact (C5_thm
        [⟨"USA", some 25000000000000⟩, ⟨"FRA", some 3000000000000⟩]
        [⟨"USA", some 331000000⟩] "FRA" (by decide)).2.1
      [⟨"USA", some 25000000000000⟩] [] ⟨"FRA", some 3000000000000⟩
      3000000000000 rfl rfl rfl (by decide) (by decide)

/-- Helper: a country already present in the destination table is skipped
without any effect. -/
theorem fetchMain_cons_skip (t : WorldBankTransport) (c : String)
    (rest existing : List String) (h : c ∈ existing) :
    fetchMain t (c :: rest) existing = fetchMain t rest existing := by
  simp [fetchMain, h]

/-- Helper: a country not yet present is processed: its (optional) row and
its two API calls are prepended to the rest of the run. -/
theorem fetchMain_cons_go (t : WorldBankTransport) (c : String)
    (rest existing : List String) (h : c ∉ existing) :
    fetchMain t (c :: rest) existing =
      ((match (processCountry t c).1 with
        | some row => [row]
        | none => []) ++ (fetchMain t rest existing).1,
       (processCountry t c).2 ++ (fetchMain t rest existing).2) := by
  simp [fetchMain, h]

/-- Helper: every API call in the trace is about a country that is in the
country list and not in the destination table. -/
theorem fetchMain_calls_mem (t : WorldBankTransport) :
    ∀ (countries existing : List String) (a : ApiCall),
      a ∈ (fetchMain t countries existing).2 →
      callCode a ∈ countries ∧ callCode a ∉ existing := by
  intro countries
  induction countries with
  | nil => intro existing a h; exact absurd h (List.not_mem_nil a)
  | cons c rest ih =>
    intro existing a h
    by_cases hc : c ∈ existing
    · rw [fetchMain_cons_skip t c rest existing hc] at h
      obtain ⟨h1, h2⟩ := ih existing a h
      exact ⟨List.mem_cons_of_mem c h1, h2⟩
    · rw [fetchMain_cons_go t c rest existing hc] at h
      rcases List.mem_append.mp h with hhead | htail
      · have hcode : callCode a = c := by
          unfold processCountry at hhead
          simp only at hhead
          rcases List.mem_cons.mp hhead with rfl | hhead'
          · rfl
          · rw [List.mem_singleton] at hhead'
            subst hhead'
            rfl
        rw [hcode]
        exact ⟨List.mem_cons_self c rest, hc⟩
      · obtain ⟨h1, h2⟩ := ih existing a htail
        exact ⟨List.mem_cons_of_mem c h1, h2⟩

/-- Helper: a country outside the country list is never called. -/
theorem fetchMain_filter_of_not_mem (t : WorldBankTransport)
    (countries existing : List String) (code : String)
    (h : code ∉ countries) :
    (fetchMain t countries existing).2.filter (fun a => callCode a == code) = [] := by
  rw [List.filter_eq_nil_iff]
  intro a ha
  simp only [beq_iff_eq]
  intro hcc
  exact h (hcc ▸ (fetchMain_calls_mem t countries existing a ha).1)

/-- Claim C8: (1) `fetch_latest_value` takes from the payload the first row
whose year matches the configured target exactly — if the rows before some
matching row all have a different year and that row carries a value, that
value is returned; (2) a known country code absent from the destination
table gets exactly two API calls, one per indicator; (3) a code already
present in the destination table gets no API call at all. -/
theorem C8_thm :
    (∀ (pre post : List WBRow) (row : WBRow) (v : ℚ),
      (∀ r ∈ pre, r.date ≠ YEAR) → row.date = YEAR → row.value = some v →
      fetch_latest_value (some (pre ++ row :: post)) = some v) ∧
    (∀ (t : WorldBankTransport) (countries existing : List String) (code : String),
      countries.Nodup → code ∈ countries → code ∉ existing →
      (fetchMain t countries existing).2.filter (fun a => callCode a == code) =
        [ApiCall.gdpCall code, ApiCall.popCall code]) ∧
    (∀ (t : WorldBankTransport) (countries existing : List String) (code : String),
      code ∈ existing →
      (fetchMain t countries existing).2.filter (fun a => callCode a == code) = []) := by
  refine ⟨?_, ?_, ?_⟩
  · intro pre post row v
    induction pre with
    | nil =>
      intro _ hrow hval
      rw [List.nil_append]
      show ((row :: post).find?
          (fun r => r.value.isSome && decide (r.date = YEAR))).bind
          (fun r => r.value) = some v
      rw [List.find?_cons_of_pos _ (by simp [hval, hrow])]
      simp [hval]
    | cons r pre ih =>
      intro hpre hrow hval
      rw [List.cons_append]
      show ((r :: (pre ++ row :: post)).find?
          (fun x => x.value.isSome && decide (x.date = YEAR))).bind
          (fun x => x.value) = some v
      rw [List.find?_cons_of_neg _ ?_]
      · exact ih (fun r' hr' => hpre r' (List.mem_cons_of_mem r hr')) hrow hval
      · have hne : r.date ≠ YEAR := hpre r (List.mem_cons_self r pre)
        simp [hne]
  · intro t countries
    induction countries with
    | nil => intro existing code _ hmem _; exact absurd hmem (List.not_mem_nil code)
    | cons c rest ih =>
      intro existing code hnd hmem hnotex
      obtain ⟨hcrest, hndrest⟩ := List.nodup_cons.mp hnd
      by_cases hc : c ∈ existing
      · have hne : code ≠ c := fun h => hnotex (h ▸ hc)
        rw [fetchMain_cons_skip t c rest existing hc]
        exact ih existing code hndrest
          (List.mem_of_ne_of_mem hne hmem) hnotex
      · rw [fetchMain_cons_go t c rest existing hc, List.filter_append]
        rcases List.mem_cons.mp hmem with rfl | hmemrest
        · rw [fetchMain_filter_of_not_mem t rest existing code hcrest]
          unfold processCountry
          simp [callCode]
        · have hne : c ≠ code := fun h => hcrest (h ▸ hmemrest)
          rw [ih existing code hndrest hmemrest hnotex]
          unfold processCountry
          simp [callCode, hne]
  · intro t countries existing code hmem
    rw [List.filter_eq_nil_iff]
    intro a ha
    simp only [beq_iff_eq]
    intro hcc
    exact (fetchMain_calls_mem t countries existing a ha).2 (hcc ▸ hmem)

/-- Witness for C8: the two-row USA payload (2022 row first) yields the 2023
value 5; a fresh "USA" run issues exactly the GDP and population calls; a run
whose only country is already stored issues no call. -/
theorem C8_witness :
    fetch_latest_value (some ([⟨2022, some 1⟩] ++ ⟨2023, some 5⟩ :: [])) = some 5 ∧
    (fetchMain wWBT ["USA"] []).2.filter (fun a => callCode a == "USA") =
      [ApiCall.gdpCall "USA", ApiCall.popCall "USA"] ∧
    (fetchMain wWBT ["FRA"] ["FRA"]).2.filter (fun a => callCode a == "FRA") = [] :=
  ⟨C8_thm.1 [⟨2022, some 1⟩] [] ⟨2023, some 5⟩ 5 (by decide) (by decide) rfl,
   C8_thm.2.1 wWBT ["USA"] [] "USA" (by decide) (by decide) (by decide),
   C8_thm.2.2 wWBT ["FRA"] ["FRA"] "FRA" (by decide)⟩

/-- Helper: a row is inserted only under the at-least-one-value guard. -/
theorem processCountry_row (t : WorldBankTransport) (c : String)
    (row : TableRow) (h : (processCountry t c).1 = some row) :
    row.gdp.isSome ∨ row.population_gdp.isSome := by
  unfold processCountry at h
  simp only at h
  split at h
  · rename_i hcond
    rcases Bool.or_eq_true _ _ |>.mp hcond with hg | hp
    · left
      cases h
      exact hg
    · right
      cases h
      simpa using hp
  · exact Option.noConfusion h

/-- Claim C10: the incremental fetcher never inserts a row with both
indicator fields null — every row of the destination table has at least one
non-null field. -/
theorem C10_thm : ∀ (t : WorldBankTransport) (countries existing : List String),
    ∀ row ∈ (fetchMain t countries existing).1,
      row.gdp.isSome ∨ row.population_gdp.isSome := by
  intro t countries
  induction countries with
  | nil => intro existing row h; exact absurd h (List.not_mem_nil row)
  | cons c rest ih =>
    intro existing row h
    by_cases hc : c ∈ existing
    · rw [fetchMain_cons_skip t c rest existing hc] at h
      exact ih existing row h
    · rw [fetchMain_cons_go t c rest existing hc] at h
      rcases List.mem_append.mp h with hhead | htail
      · cases hpc : (processCountry t c).1 with
        | none => rw [hpc] at hhead; exact absurd hhead (List.not_mem_nil row)
        | some row' =>
          rw [hpc] at hhead
          rw [List.mem_singleton] at hhead
          subst hhead
          exact processCountry_row t c row hpc
      · exact ih existing row htail

/-- Witness for C10: the fresh "USA" run of the concrete transport inserts a
GDP-only row, which indeed has a non-null field. -/
theorem C10_witness :
    (⟨"USA", some 5, none⟩ : TableRow).gdp.isSome ∨
      (⟨"USA", some 5, none⟩ : TableRow).population_gdp.isSome :=
  C10_thm wWBT ["USA"] [] ⟨"USA", some 5, none⟩ (by
    rw [fetchMain_cons_go wWBT "USA" [] [] (by decide)]
    rw [show (processCountry wWBT "USA").1 = some ⟨"USA", some 5, none⟩ from rfl]
    exact List.mem_cons_self _ _)

end FilmModel
